import Mathlib

/-!
Verification of the chunked transport layer in `pymadoka_patch/transport.py`
(Daikin Madoka BLE client): the fragmenter `Transport.split_in_chunks` and the
stateful reassembler `Transport.rebuild_chunk`.

Bytes are modelled as `Nat` (the code never performs byte arithmetic), byte
sequences (`bytearray`) as `List Nat`.  The mutable fields `self.chunks` and
`self.expected_length` form the state `TState`.  Delegate callback invocations
are recorded as events in a log.  Exceptions are modelled explicitly: an
`ExcEnv` designates, for each operation inside the `try:` block that could be
observed raising (reading the length byte, appending a chunk, concatenating,
and the delegate's `response_rebuilt` callback), whether that operation
raises; the `except Exception:` handler of the source is the outer match in
`Transport.rebuild_chunk`.  Instantiating the exception type with `Empty`
gives the exception-free semantics `deliver`.
-/

namespace Transport

/-- A byte sequence (Python `bytearray`). -/
abbrev Bytes := List Nat

/-- `Transport.split_in_chunks` from `transport.py`:
`for i in range(0, len(data), chunk_size): chunks.append(data[i:i+chunk_size])`.
Each iteration slices `data[i:i+chunk_size]`; the slices are the successive
`chunk_size`-byte pieces of `data`, and `range` over empty `data` is empty.
(`chunk_size = 0` makes Python's `range` raise and is outside the modelled
domain; the guard below is only for termination.) -/
def split_in_chunks (data : Bytes) (chunk_size : Nat) : List Bytes :=
  if h : data = [] ∨ chunk_size = 0 then []
  else data.take chunk_size :: split_in_chunks (data.drop chunk_size) chunk_size
termination_by data.length
decreasing_by
  simp only [List.length_drop]
  rcases not_or.mp h with ⟨hd, hc⟩
  have hl : 0 < data.length := List.length_pos.mpr hd
  omega

/-- The mutable state of a `Transport` object: fields `self.chunks` and
`self.expected_length`, as initialised by `__init__` and mutated by
`rebuild_chunk`. -/
structure TState where
  chunks : List Bytes
  expected_length : Nat
deriving DecidableEq, Repr

/-- The state set by `Transport.__init__`: `self.chunks = []`,
`self.expected_length = 0`. -/
def initState : TState := { chunks := [], expected_length := 0 }

/-- One delegate callback invocation (`TransportDelegate.response_rebuilt` or
`TransportDelegate.response_failed`), recorded in invocation order. -/
inductive Ev where
  | rebuilt (data : Bytes)
  | failed (data : Bytes)
deriving DecidableEq, Repr

/-- Exception behaviour of the operations inside the `try:` block of
`rebuild_chunk`: `readLenExc` for `chunk[0]`, `appendExc` for
`self.chunks.append(chunk)`, `concatExc` for building `complete_data`, and
`rebuiltExc d` for the delegate call `self.delegate.response_rebuilt(d)`.
`none` means the operation returns normally. -/
structure ExcEnv (E : Type) where
  readLenExc : Option E
  appendExc : Option E
  concatExc : Option E
  rebuiltExc : Bytes → Option E

/-- The tail of the `try:` block of `rebuild_chunk`, after the first
`if/else`: `total_received = sum(len(c) for c in self.chunks)`, the test
`total_received >= self.expected_length`, concatenation of the chunks into
`complete_data`, the reset of both fields, and the call
`self.delegate.response_rebuilt(complete_data)`.  Returns the state and the
event log at the end of the `try:` block, together with the exception, if
any, escaping it (the `rebuilt` event is recorded even when the delegate
callback raises, since the invocation did happen). -/
def completeCheck {E : Type} (env : ExcEnv E) (s : TState) :
    TState × List Ev × Option E :=
  let total_received := (s.chunks.map List.length).sum
  if s.expected_length ≤ total_received then
    match env.concatExc with
    | some e => (s, [], some e)
    | none =>
      let complete_data := s.chunks.flatten
      let s' : TState := { chunks := [], expected_length := 0 }
      match env.rebuiltExc complete_data with
      | some e => (s', [Ev.rebuilt complete_data], some e)
      | none => (s', [Ev.rebuilt complete_data], none)
  else (s, [], none)

/-- The `try:` block of `Transport.rebuild_chunk`: if `self.chunks` is empty
and the chunk is non-empty, `self.expected_length = chunk[0]` and
`self.chunks = [chunk]`; if the chunk is empty, log a warning and `return`
(skipping the completion check); otherwise `self.chunks.append(chunk)`.  Then
`completeCheck`. -/
def rebuildBody {E : Type} (env : ExcEnv E) (s : TState) (chunk : Bytes) :
    TState × List Ev × Option E :=
  if s.chunks.isEmpty then
    if 0 < chunk.length then
      match env.readLenExc with
      | some e => (s, [], some e)
      | none =>
        completeCheck env { expected_length := chunk.headD 0, chunks := [chunk] }
    else
      (s, [], none)
  else
    match env.appendExc with
    | some e => (s, [], some e)
    | none => completeCheck env { s with chunks := s.chunks ++ [chunk] }

/-- `Transport.rebuild_chunk`: the `try:` body followed by the
`except Exception:` handler, which resets `self.chunks = []` and
`self.expected_length = 0` and calls
`self.delegate.response_failed(bytearray())` (the delegate is a
`TransportDelegate`, which always has the `response_failed` attribute). -/
def rebuild_chunk {E : Type} (env : ExcEnv E) (s : TState) (chunk : Bytes) :
    TState × List Ev :=
  match rebuildBody env s chunk with
  | (s', evs, none) => (s', evs)
  | (_, evs, some _) =>
    ({ chunks := [], expected_length := 0 }, evs ++ [Ev.failed []])

/-- The exception-free environment: no operation raises.  With exception type
`Empty`, raising is impossible by type. -/
def noExc : ExcEnv Empty :=
  { readLenExc := none, appendExc := none, concatExc := none,
    rebuiltExc := fun _ => none }

/-- `rebuild_chunk` under the exception-free semantics: delivering one
fragment to the reassembler. -/
def deliver (s : TState) (chunk : Bytes) : TState × List Ev :=
  rebuild_chunk noExc s chunk

/-- Delivering a list of fragments in order, accumulating the event log. -/
def run (s : TState) : List Bytes → TState × List Ev
  | [] => (s, [])
  | c :: cs =>
    let p := deliver s c
    let q := run p.1 cs
    (q.1, p.2 ++ q.2)

end Transport

open Transport

/-- Two reassembler states indistinguishable by `deliver`: same
`expected_length`, same concatenated buffer content, and agreement on whether
the buffer is empty.  (The cumulative length is the flattened buffer's
length, so it agrees too.) -/
def SimR (s t : TState) : Prop :=
  s.expected_length = t.expected_length ∧
  s.chunks.flatten = t.chunks.flatten ∧
  (s.chunks = [] ↔ t.chunks = [])

namespace Transport

/-- Unfolding equation for `split_in_chunks`. -/
theorem split_in_chunks_eq (d : Bytes) (c : Nat) :
    split_in_chunks d c =
      if d = [] ∨ c = 0 then []
      else d.take c :: split_in_chunks (d.drop c) c := by
  rw [split_in_chunks]
  by_cases h : d = [] ∨ c = 0 <;> simp [h]

end Transport

namespace Transport

/-- Delivering a non-empty chunk to an idle reassembler (`self.chunks` empty):
`expected_length` becomes byte 0 of the chunk, the chunk becomes the whole
buffer, and the completion check fires iff the chunk already holds at least
`chunk[0]` bytes. -/
theorem deliver_first (s : TState) (c : Bytes) (hs : s.chunks = []) (hc : c ≠ []) :
    deliver s c =
      if c.headD 0 ≤ c.length then (initState, [Ev.rebuilt c])
      else ({ chunks := [c], expected_length := c.headD 0 }, []) := by
  have hlen : 0 < c.length := List.length_pos.mpr hc
  simp only [deliver, rebuild_chunk, rebuildBody, completeCheck, noExc, hs,
    List.isEmpty_nil, if_pos, hlen, if_true]
  by_cases h : (c.head?).getD 0 ≤ c.length <;>
    simp [h, initState]

/-- Delivering an empty chunk to an idle reassembler: early `return`, no
state change, no events. -/
theorem deliver_empty_first (s : TState) (hs : s.chunks = []) :
    deliver s [] = (s, []) := by
  simp [deliver, rebuild_chunk, rebuildBody, noExc, hs]

/-- Delivering a chunk to an accumulating reassembler (`self.chunks`
non-empty): the chunk is appended and the completion check compares the new
cumulative length with `expected_length`. -/
theorem deliver_next (s : TState) (c : Bytes) (hs : s.chunks ≠ []) :
    deliver s c =
      if s.expected_length ≤ (s.chunks.map List.length).sum + c.length then
        (initState, [Ev.rebuilt ((s.chunks ++ [c]).flatten)])
      else ({ s with chunks := s.chunks ++ [c] }, []) := by
  have hs' : s.chunks.isEmpty = false := by
    simpa [List.isEmpty_iff] using hs
  simp only [deliver, rebuild_chunk, rebuildBody, completeCheck, noExc, hs',
    Bool.false_eq_true, if_false]
  by_cases h : s.expected_length ≤ (s.chunks.map List.length).sum + c.length <;>
    simp [h, initState]

end Transport

/-- C1: for every byte sequence `d` and positive `c`, concatenating the
elements of `split_in_chunks d c` in order reproduces `d`; every element
except possibly the last has length exactly `c`; if `d` is non-empty the
last element has length in `[1, c]`; and if `d` is empty the result is the
empty sequence. -/
theorem split_in_chunks_spec (d : Bytes) (c : Nat) (hc : 0 < c) :
    (split_in_chunks d c).flatten = d ∧
    (∀ l ∈ (split_in_chunks d c).dropLast, l.length = c) ∧
    (d ≠ [] → ∃ lst, (split_in_chunks d c).getLast? = some lst ∧
      1 ≤ lst.length ∧ lst.length ≤ c) ∧
    (d = [] → split_in_chunks d c = []) := by
  induction d, c using Transport.split_in_chunks.induct with
  | case1 d c h =>
    have hd : d = [] := h.resolve_right (Nat.pos_iff_ne_zero.mp hc)
    subst hd
    rw [split_in_chunks_eq]
    simp
  | case2 d c h ih =>
    rcases not_or.mp h with ⟨hd, hc0⟩
    rw [split_in_chunks_eq, if_neg h]
    by_cases hdrop : d.drop c = []
    · have hlen : d.length ≤ c := List.drop_eq_nil_iff.mp hdrop
      have htake : d.take c = d := List.take_of_length_le hlen
      rw [split_in_chunks_eq (d.drop c) c, if_pos (Or.inl hdrop)]
      refine ⟨by simp [htake], by simp, fun _ => ⟨d, ?_, ?_, ?_⟩, fun hd' => absurd hd' hd⟩
      · simp [htake]
      · exact Nat.one_le_iff_ne_zero.mpr (fun h0 => hd (List.length_eq_zero.mp h0))
      · simpa [htake] using hlen
    · obtain ⟨hflat, hmid, hlast, -⟩ := ih hc
      have hclen : c < d.length := by
        have := List.drop_eq_nil_iff.not.mp (by simpa using hdrop)
        omega
      have hne : split_in_chunks (d.drop c) c ≠ [] := by
        rw [split_in_chunks_eq, if_neg (not_or.mpr ⟨hdrop, hc0⟩)]
        simp
      refine ⟨?_, ?_, fun _ => ?_, fun hd' => absurd hd' hd⟩
      · simp [hflat, List.take_append_drop]
      · intro l hl
        rw [List.dropLast_cons_of_ne_nil hne] at hl
        rcases List.mem_cons.mp hl with hl | hl
        · subst hl
          simp [List.length_take]
          omega
        · exact hmid l hl
      · obtain ⟨lst, hlst, h1, h2⟩ := hlast hdrop
        refine ⟨lst, ?_, h1, h2⟩
        obtain ⟨x, xs, hx⟩ := List.exists_cons_of_ne_nil hne
        rw [hx, List.getLast?_cons_cons, ← hx, hlst]

/-- C2: delivering a single non-empty fragment whose first byte is at most the
fragment's length to an idle reassembler (`chunks` buffer empty) invokes the
delegate's `response_rebuilt` exactly once, with the entire fragment
untruncated, and returns the reassembler to idle (`chunks = []`,
`expected_length = 0`). -/
theorem single_fragment_completion (s : TState) (c : Bytes)
    (hs : s.chunks = []) (hc : c ≠ []) (hlen : c.headD 0 ≤ c.length) :
    deliver s c = ({ chunks := [], expected_length := 0 }, [Ev.rebuilt c]) := by
  rw [deliver_first s c hs hc, if_pos hlen]
  rfl

/-- Witness for C2 at the spec's example `[5, a, b, c, d]`. -/
theorem single_fragment_completion_witness :
    initState.chunks = [] ∧ ([5, 10, 11, 12, 13] : Bytes) ≠ [] ∧
    ([5, 10, 11, 12, 13] : Bytes).headD 0 ≤ ([5, 10, 11, 12, 13] : Bytes).length ∧
    deliver initState [5, 10, 11, 12, 13] =
      ({ chunks := [], expected_length := 0 }, [Ev.rebuilt [5, 10, 11, 12, 13]]) :=
  ⟨rfl, by decide, by decide,
    single_fragment_completion initState [5, 10, 11, 12, 13] rfl (by decide) (by decide)⟩

/-- C3: while a message spans several fragments, no delegate callback fires as
long as the cumulative buffered length stays strictly below `expected_length`,
and the fragment that makes it reach or exceed `expected_length` triggers
`response_rebuilt` with the in-order concatenation of all buffered fragments;
concretely, `[3, x]` then `[y, z]` gives no callback after the first fragment
and `response_rebuilt [3, x, y, z]` after the second. -/
theorem multi_fragment_completion (s : TState) (c : Bytes) (x y z : Nat)
    (hs : s.chunks ≠ []) :
    ((s.chunks.map List.length).sum + c.length < s.expected_length →
      deliver s c = ({ s with chunks := s.chunks ++ [c] }, [])) ∧
    (s.expected_length ≤ (s.chunks.map List.length).sum + c.length →
      deliver s c = ({ chunks := [], expected_length := 0 },
        [Ev.rebuilt ((s.chunks ++ [c]).flatten)])) ∧
    deliver initState [3, x] = ({ chunks := [[3, x]], expected_length := 3 }, []) ∧
    run initState [[3, x], [y, z]] =
      ({ chunks := [], expected_length := 0 }, [Ev.rebuilt [3, x, y, z]]) := by
  have h1 : deliver initState [3, x] =
      ({ chunks := [[3, x]], expected_length := 3 }, []) := by
    rw [deliver_first initState [3, x] rfl (by simp), if_neg (by simp)]
    rfl
  refine ⟨fun hlt => ?_, fun hge => ?_, h1, ?_⟩
  · rw [deliver_next s c hs, if_neg (by omega)]
  · rw [deliver_next s c hs, if_pos hge]
    rfl
  · have h2 : deliver { chunks := [[3, x]], expected_length := 3 } [y, z] =
        ({ chunks := [], expected_length := 0 }, [Ev.rebuilt [3, x, y, z]]) := by
      rw [deliver_next { chunks := [[3, x]], expected_length := 3 } [y, z] (by simp),
        if_pos (by simp)]
      rfl
    simp [run, h1, h2]

/-- Witness for C3 at `s = ⟨[[0]], 5⟩`, `c = [1]` (still short of 5 bytes),
and the spec's concrete two-fragment run with `x, y, z = 7, 8, 9`. -/
theorem multi_fragment_completion_witness :
    deliver { chunks := [[0]], expected_length := 5 } [1] =
      ({ chunks := [[0], [1]], expected_length := 5 }, []) ∧
    deliver { chunks := [[0], [1]], expected_length := 5 } [2, 3, 4] =
      ({ chunks := [], expected_length := 0 },
        [Ev.rebuilt (([[0], [1]] ++ [[2, 3, 4]]).flatten)]) ∧
    deliver initState [3, 7] = ({ chunks := [[3, 7]], expected_length := 3 }, []) ∧
    run initState [[3, 7], [8, 9]] =
      ({ chunks := [], expected_length := 0 }, [Ev.rebuilt [3, 7, 8, 9]]) :=
  ⟨(multi_fragment_completion { chunks := [[0]], expected_length := 5 } [1] 7 8 9
      (by decide)).1 (by decide),
    (multi_fragment_completion { chunks := [[0], [1]], expected_length := 5 }
      [2, 3, 4] 7 8 9 (by decide)).2.1 (by decide),
    (multi_fragment_completion { chunks := [[0]], expected_length := 5 } [1] 7 8 9
      (by decide)).2.2.1,
    (multi_fragment_completion { chunks := [[0]], expected_length := 5 } [1] 7 8 9
      (by decide)).2.2.2⟩

/-- C4: when completion happens with cumulative length strictly above
`expected_length` (over-read), the delegate receives the full concatenation,
whose length is the whole cumulative length — nothing is truncated; in
particular `[2, a, b, c]` delivered to idle yields
`response_rebuilt [2, a, b, c]` (all 4 bytes). -/
theorem over_read_not_truncated (s : TState) (c : Bytes) (a b d : Nat)
    (hs : s.chunks ≠ [])
    (hover : s.expected_length < (s.chunks.map List.length).sum + c.length) :
    (deliver s c = ({ chunks := [], expected_length := 0 },
        [Ev.rebuilt ((s.chunks ++ [c]).flatten)]) ∧
      ((s.chunks ++ [c]).flatten).length =
        (s.chunks.map List.length).sum + c.length) ∧
    deliver initState [2, a, b, d] =
      ({ chunks := [], expected_length := 0 }, [Ev.rebuilt [2, a, b, d]]) := by
  refine ⟨⟨?_, ?_⟩, ?_⟩
  · rw [deliver_next s c hs, if_pos (le_of_lt hover)]
    rfl
  · simp [List.length_flatten, List.map_append, List.sum_append]
  · rw [deliver_first initState [2, a, b, d] rfl (by simp), if_pos (by simp)]
    rfl

/-- Witness for C4 at `s = ⟨[[2, 6]], 2⟩`, `c = [7]`, `a, b, c = 6, 7, 8`. -/
theorem over_read_not_truncated_witness :
    ({ chunks := [[2, 6]], expected_length := 2 } : TState).chunks ≠ [] ∧
    2 < ((({ chunks := [[2, 6]], expected_length := 2 } : TState).chunks.map
        List.length).sum + ([7] : Bytes).length) ∧
    deliver { chunks := [[2, 6]], expected_length := 2 } [7] =
      ({ chunks := [], expected_length := 0 },
        [Ev.rebuilt (([[2, 6]] ++ [[7]]).flatten)]) ∧
    deliver initState [2, 6, 7, 8] =
      ({ chunks := [], expected_length := 0 }, [Ev.rebuilt [2, 6, 7, 8]]) :=
  ⟨by decide, by decide,
    (over_read_not_truncated { chunks := [[2, 6]], expected_length := 2 } [7] 6 7 8
      (by decide) (by decide)).1.1,
    (over_read_not_truncated { chunks := [[2, 6]], expected_length := 2 } [7] 6 7 8
      (by decide) (by decide)).2⟩

/-- C7: delivering an empty fragment to an idle reassembler produces no
callback and changes nothing: the state (including `expected_length`) is
returned untouched, so the next delivery behaves exactly like a delivery to
the unmodified state, i.e. as a first fragment. -/
theorem empty_first_fragment (s : TState) (hs : s.chunks = []) :
    deliver s [] = (s, []) ∧
    ∀ c, deliver (deliver s []).1 c = deliver s c := by
  have h := deliver_empty_first s hs
  exact ⟨h, fun c => by rw [h]⟩

/-- Witness for C7 at an idle state with a stale `expected_length = 9`. -/
theorem empty_first_fragment_witness :
    ({ chunks := [], expected_length := 9 } : TState).chunks = [] ∧
    deliver { chunks := [], expected_length := 9 } [] =
      ({ chunks := [], expected_length := 9 }, []) ∧
    ∀ c, deliver (deliver { chunks := [], expected_length := 9 } []).1 c =
      deliver { chunks := [], expected_length := 9 } c :=
  ⟨rfl, (empty_first_fragment { chunks := [], expected_length := 9 } rfl).1,
    (empty_first_fragment { chunks := [], expected_length := 9 } rfl).2⟩

/-- C8: `expected_length` is written exactly once per message cycle, from byte
offset 0 of the cycle's first (non-empty) fragment.  While accumulating, a
delivery either leaves `expected_length` untouched or ends the cycle with the
reset to the initial state (it is never re-read from a later fragment's
bytes); from idle, a non-empty fragment either completes at once (reset) or
stores its byte 0 as `expected_length`; and an empty fragment at idle starts
no cycle and writes nothing. -/
theorem expected_length_set_once (s : TState) (c : Bytes) :
    (s.chunks ≠ [] →
      (deliver s c).1.expected_length = s.expected_length ∨
        (deliver s c).1 = initState) ∧
    (s.chunks = [] → c ≠ [] →
      (deliver s c).1 = initState ∨
        (deliver s c).1.expected_length = c.headD 0) ∧
    (s.chunks = [] → c = [] → (deliver s c).1 = s) := by
  refine ⟨fun hs => ?_, fun hs hc => ?_, fun hs hc => ?_⟩
  · rw [deliver_next s c hs]
    split
    · exact Or.inr rfl
    · exact Or.inl rfl
  · rw [deliver_first s c hs hc]
    split
    · exact Or.inl rfl
    · exact Or.inr rfl
  · subst hc
    rw [deliver_empty_first s hs]

/-- Witness for C8 at an accumulating state, a fresh first fragment, and an
empty fragment at idle. -/
theorem expected_length_set_once_witness :
    ((deliver { chunks := [[3, 7]], expected_length := 3 } [9]).1.expected_length =
        ({ chunks := [[3, 7]], expected_length := 3 } : TState).expected_length ∨
      (deliver { chunks := [[3, 7]], expected_length := 3 } [9]).1 = initState) ∧
    ((deliver { chunks := [], expected_length := 0 } [7, 1]).1 = initState ∨
      (deliver { chunks := [], expected_length := 0 } [7, 1]).1.expected_length =
        ([7, 1] : Bytes).headD 0) ∧
    (deliver { chunks := [], expected_length := 4 } []).1 =
      { chunks := [], expected_length := 4 } :=
  ⟨(expected_length_set_once { chunks := [[3, 7]], expected_length := 3 } [9]).1
      (by decide),
    (expected_length_set_once { chunks := [], expected_length := 0 } [7, 1]).2.1
      rfl (by decide),
    (expected_length_set_once { chunks := [], expected_length := 4 } []).2.2
      rfl rfl⟩

/-- Whenever the `try:` body of `rebuild_chunk` produces any event, that event
is a single `response_rebuilt` invocation and the state returned by the body
has already been reset (`self.chunks = []`, `self.expected_length = 0`
happen before `self.delegate.response_rebuilt(complete_data)` in the source).
-/
theorem rebuildBody_cases {E : Type} (env : ExcEnv E) (s : TState) (c : Bytes) :
    (rebuildBody env s c).2.1 = [] ∨
    ((rebuildBody env s c).1 = initState ∧
      ∃ d, (rebuildBody env s c).2.1 = [Ev.rebuilt d]) := by
  simp only [rebuildBody, completeCheck]
  repeat' split
  all_goals simp [initState]

theorem rebuildBody_events {E : Type} (env : ExcEnv E) (s : TState) (c : Bytes)
    (h : (rebuildBody env s c).2.1 ≠ []) :
    (rebuildBody env s c).1 = initState ∧
    ∃ d, (rebuildBody env s c).2.1 = [Ev.rebuilt d] := by
  rcases rebuildBody_cases env s c with h0 | h1
  · exact absurd h0 h
  · exact h1

/-- C6: completion and failure reset the reassembler to the freshly
constructed state (`self.chunks = []`, `self.expected_length = 0`, reset
before the delegate is notified — see `rebuildBody_events`), so after any
delivery that produced a callback, delivering a fresh fragment behaves
exactly as delivering it to a newly constructed `Transport`. -/
theorem reset_before_notify {E : Type} (env : ExcEnv E) (s : TState) (c : Bytes)
    (h : (rebuild_chunk env s c).2 ≠ []) :
    (rebuild_chunk env s c).1 = initState ∧
    ∀ c', deliver (rebuild_chunk env s c).1 c' = deliver initState c' := by
  have hst : (rebuild_chunk env s c).1 = initState := by
    unfold rebuild_chunk at h ⊢
    rcases hB : rebuildBody env s c with ⟨s', evs, exc⟩
    rw [hB] at h
    cases exc with
    | none =>
      have hevs : evs ≠ [] := by simpa using h
      have := rebuildBody_events env s c (by rw [hB]; simpa using hevs)
      rw [hB] at this
      simpa using this.1
    | some e => rfl
  exact ⟨hst, fun c' => by rw [hst]⟩

/-- Witness for C6: a completing delivery, checked to leave the initial
state. -/
theorem reset_before_notify_witness :
    (rebuild_chunk noExc { chunks := [[3, 7]], expected_length := 3 } [9]).2 ≠ [] ∧
    (rebuild_chunk noExc { chunks := [[3, 7]], expected_length := 3 } [9]).1 =
      initState ∧
    ∀ c', deliver
        (rebuild_chunk noExc { chunks := [[3, 7]], expected_length := 3 } [9]).1 c' =
      deliver initState c' :=
  ⟨by decide,
    (reset_before_notify noExc { chunks := [[3, 7]], expected_length := 3 } [9]
      (by decide)).1,
    (reset_before_notify noExc { chunks := [[3, 7]], expected_length := 3 } [9]
      (by decide)).2⟩

/-- If the `try:` body raises and the raise does not come from the delegate's
`response_rebuilt` call, no event was produced before the raise. -/
theorem rebuildBody_raise_no_events {E : Type} (env : ExcEnv E) (s : TState)
    (c : Bytes) (hdel : ∀ d, env.rebuiltExc d = none)
    (hraise : ((rebuildBody env s c).2.2).isSome) :
    (rebuildBody env s c).2.1 = [] := by
  have hcases : (rebuildBody env s c).2.2 = none ∨ (rebuildBody env s c).2.1 = [] := by
    simp only [rebuildBody, completeCheck]
    repeat' split
    all_goals simp_all [hdel]
  rcases hcases with h0 | h0
  · rw [h0] at hraise
    simp at hraise
  · exact h0

/-- C5: when any operation of the `try:` body other than the delegate's
success callback raises (reading the length byte, appending, concatenating),
`rebuild_chunk` catches the exception (by construction it returns normally —
the `except Exception:` handler of the source), unconditionally resets the
state to idle (`chunks = []`, `expected_length = 0`), and invokes the
delegate's `response_failed` exactly once with the empty byte sequence —
never with the accumulated partial data. -/
theorem error_path_resets_and_reports {E : Type} (env : ExcEnv E) (s : TState)
    (c : Bytes) (hdel : ∀ d, env.rebuiltExc d = none)
    (hraise : ((rebuildBody env s c).2.2).isSome) :
    rebuild_chunk env s c =
      ({ chunks := [], expected_length := 0 }, [Ev.failed []]) := by
  have hevs := rebuildBody_raise_no_events env s c hdel hraise
  unfold rebuild_chunk
  rcases hB : rebuildBody env s c with ⟨s', evs, exc⟩
  rw [hB] at hevs hraise
  cases exc with
  | none => simp at hraise
  | some e =>
    simp only at hevs
    subst hevs
    rfl

/-- Witness for C5: the append raises (exception type `Unit`) on an
accumulating state holding partial data `[3, 7]`. -/
theorem error_path_resets_and_reports_witness :
    (∀ d, (ExcEnv.mk (E := Unit) none (some ()) none fun _ => none).rebuiltExc d
        = none) ∧
    ((rebuildBody (ExcEnv.mk (E := Unit) none (some ()) none fun _ => none)
        { chunks := [[3, 7]], expected_length := 3 } [9]).2.2).isSome ∧
    rebuild_chunk (ExcEnv.mk (E := Unit) none (some ()) none fun _ => none)
        { chunks := [[3, 7]], expected_length := 3 } [9] =
      ({ chunks := [], expected_length := 0 }, [Ev.failed []]) :=
  ⟨fun _ => rfl, rfl,
    error_path_resets_and_reports
      (ExcEnv.mk (E := Unit) none (some ()) none fun _ => none)
      { chunks := [[3, 7]], expected_length := 3 } [9] (fun _ => rfl) rfl⟩

/-- C9: if the delegate's `response_rebuilt` raises on a completed message,
`rebuild_chunk` catches the exception (returning normally), the state stays
at the already-performed reset (idle), and `response_failed` is additionally
invoked with the empty byte sequence — so both callbacks fire on that
delivery. -/
theorem rebuilt_callback_raise_reported {E : Type} (env : ExcEnv E) (s : TState)
    (c : Bytes) (d : Bytes) (hr : env.readLenExc = none)
    (ha : env.appendExc = none) (hco : env.concatExc = none)
    (hpure : (deliver s c).2 = [Ev.rebuilt d])
    (hraise : (env.rebuiltExc d).isSome) :
    rebuild_chunk env s c =
      ({ chunks := [], expected_length := 0 }, [Ev.rebuilt d, Ev.failed []]) := by
  obtain ⟨e, he⟩ := Option.isSome_iff_exists.mp hraise
  by_cases hs : s.chunks = []
  · by_cases hc : c = []
    · subst hc
      rw [deliver_empty_first s hs] at hpure
      simp at hpure
    · rw [deliver_first s c hs hc] at hpure
      by_cases hl : c.headD 0 ≤ c.length
      · rw [if_pos hl] at hpure
        have hd : c = d := by simpa using hpure
        subst hd
        have hlen : 0 < c.length := List.length_pos.mpr hc
        simp only [List.headD_eq_head?_getD] at hl
        unfold rebuild_chunk rebuildBody completeCheck
        simp [hs, hr, hco, hlen, hl, he]
      · rw [if_neg hl] at hpure
        simp at hpure
  · rw [deliver_next s c hs] at hpure
    by_cases hl : s.expected_length ≤ (s.chunks.map List.length).sum + c.length
    · rw [if_pos hl] at hpure
      have hd : (s.chunks ++ [c]).flatten = d := by simpa using hpure
      subst hd
      have hs' : s.chunks.isEmpty = false := by simpa [List.isEmpty_iff] using hs
      simp only [List.flatten_append, List.flatten_cons, List.flatten_nil,
        List.append_nil] at he
      unfold rebuild_chunk rebuildBody completeCheck
      simp [hs', ha, hco, hl, he]
    · rw [if_neg hl] at hpure
      simp at hpure

/-- Witness for C9: delegate success callback always raises (`Unit`
exceptions); a one-fragment message `[2, 9]` completes, then fails. -/
theorem rebuilt_callback_raise_reported_witness :
    (ExcEnv.mk (E := Unit) none none none fun _ => some ()).readLenExc = none ∧
    (ExcEnv.mk (E := Unit) none none none fun _ => some ()).appendExc = none ∧
    (ExcEnv.mk (E := Unit) none none none fun _ => some ()).concatExc = none ∧
    (deliver initState [2, 9]).2 = [Ev.rebuilt [2, 9]] ∧
    ((ExcEnv.mk (E := Unit) none none none fun _ => some ()).rebuiltExc
        [2, 9]).isSome ∧
    rebuild_chunk (ExcEnv.mk (E := Unit) none none none fun _ => some ())
        initState [2, 9] =
      ({ chunks := [], expected_length := 0 },
        [Ev.rebuilt [2, 9], Ev.failed []]) :=
  ⟨rfl, rfl, rfl, by decide, rfl,
    rebuilt_callback_raise_reported
      (ExcEnv.mk (E := Unit) none none none fun _ => some ())
      initState [2, 9] [2, 9] rfl rfl rfl (by decide) rfl⟩

theorem sum_map_length_eq_flatten (l : List Bytes) :
    (l.map List.length).sum = l.flatten.length :=
  (List.length_flatten l).symm

/-- `deliver` preserves `SimR` and produces the same events on `SimR`-related
states. -/
theorem deliver_simR (s t : TState) (h : SimR s t) (c : Bytes) :
    SimR (deliver s c).1 (deliver t c).1 ∧ (deliver s c).2 = (deliver t c).2 := by
  obtain ⟨hel, hfl, hemp⟩ := h
  by_cases hs : s.chunks = []
  · have ht : t.chunks = [] := hemp.mp hs
    by_cases hc : c = []
    · subst hc
      rw [deliver_empty_first s hs, deliver_empty_first t ht]
      exact ⟨⟨hel, hfl, hemp⟩, rfl⟩
    · rw [deliver_first s c hs hc, deliver_first t c ht hc]
      split
      · exact ⟨⟨rfl, rfl, Iff.rfl⟩, rfl⟩
      · exact ⟨⟨rfl, rfl, Iff.rfl⟩, rfl⟩
  · have ht : t.chunks ≠ [] := fun h' => hs (hemp.mpr h')
    have htot : (s.chunks.map List.length).sum = (t.chunks.map List.length).sum := by
      rw [sum_map_length_eq_flatten, sum_map_length_eq_flatten, hfl]
    rw [deliver_next s c hs, deliver_next t c ht, hel, htot]
    by_cases hcomp :
        t.expected_length ≤ (t.chunks.map List.length).sum + c.length
    · rw [if_pos hcomp, if_pos hcomp]
      refine ⟨⟨rfl, rfl, Iff.rfl⟩, ?_⟩
      simp [List.flatten_append, hfl]
    · rw [if_neg hcomp, if_neg hcomp]
      refine ⟨⟨rfl, ?_, ?_⟩, rfl⟩
      · simp [List.flatten_append, hfl]
      · simp

/-- Runs from `SimR`-related states produce identical event traces. -/
theorem run_simR (cs : List Bytes) :
    ∀ s t : TState, SimR s t → (run s cs).2 = (run t cs).2 := by
  induction cs with
  | nil => intro s t _; rfl
  | cons c cs ih =>
    intro s t h
    obtain ⟨hsim, hev⟩ := deliver_simR s t h c
    simp only [run]
    rw [hev, ih _ _ hsim]

/-- C10: an empty fragment delivered while accumulating (buffer non-empty,
cumulative length still below `expected_length`) is accepted without error:
it is appended to the buffer, the cumulative length and `expected_length` are
unchanged, no callback fires, and every subsequent delivery sequence produces
exactly the events (in particular the same completed message) it would have
produced had the empty fragment never arrived. -/
theorem empty_fragment_while_accumulating (s : TState) (cs : List Bytes)
    (hs : s.chunks ≠ [])
    (hlt : (s.chunks.map List.length).sum < s.expected_length) :
    deliver s [] = ({ s with chunks := s.chunks ++ [[]] }, []) ∧
    (run { s with chunks := s.chunks ++ [[]] } cs).2 = (run s cs).2 := by
  constructor
  · rw [deliver_next s [] hs,
      if_neg (by simp only [List.length_nil, Nat.add_zero]; omega)]
  · apply run_simR
    refine ⟨rfl, ?_, ?_⟩
    · simp
    · simp [hs]

/-- Witness for C10: partial state `⟨[[3, 7]], 3⟩`, then an empty fragment,
then `[9]`. -/
theorem empty_fragment_while_accumulating_witness :
    ({ chunks := [[3, 7]], expected_length := 3 } : TState).chunks ≠ [] ∧
    ((({ chunks := [[3, 7]], expected_length := 3 } : TState).chunks.map
        List.length).sum < 3) ∧
    deliver { chunks := [[3, 7]], expected_length := 3 } [] =
      ({ chunks := [[3, 7], []], expected_length := 3 }, []) ∧
    (run { chunks := [[3, 7], []], expected_length := 3 } [[9]]).2 =
      (run { chunks := [[3, 7]], expected_length := 3 } [[9]]).2 :=
  ⟨by decide, by decide,
    (empty_fragment_while_accumulating { chunks := [[3, 7]], expected_length := 3 }
      [[9]] (by decide) (by decide)).1,
    (empty_fragment_while_accumulating { chunks := [[3, 7]], expected_length := 3 }
      [[9]] (by decide) (by decide)).2⟩

/-- Witness for C1 at `d = [1, 2, 3, 4, 5]`, `c = 2` (and the empty-`d` part
at `d = []`). -/
theorem split_in_chunks_spec_witness :
    (split_in_chunks [1, 2, 3, 4, 5] 2).flatten = [1, 2, 3, 4, 5] ∧
    (∀ l ∈ (split_in_chunks [1, 2, 3, 4, 5] 2).dropLast, l.length = 2) ∧
    (∃ lst, (split_in_chunks [1, 2, 3, 4, 5] 2).getLast? = some lst ∧
      1 ≤ lst.length ∧ lst.length ≤ 2) ∧
    split_in_chunks [] 2 = [] :=
  ⟨(split_in_chunks_spec [1, 2, 3, 4, 5] 2 (by decide)).1,
    (split_in_chunks_spec [1, 2, 3, 4, 5] 2 (by decide)).2.1,
    (split_in_chunks_spec [1, 2, 3, 4, 5] 2 (by decide)).2.2.1 (by decide),
    (split_in_chunks_spec [] 2 (by decide)).2.2.2 rfl⟩
